import Mathlib

/-!
# Verification of the publication-sync pipeline (`cv+.py`)

A shallow embedding of the checkpoint/resume, retry, classification,
deduplication, formatting and sorting logic of the script, together with
theorems settling the specification claims.

External effects (network fetches, the Tor control socket, the filesystem,
sleeps and timestamps) are modelled by passing the observed outcomes in
explicitly: a fetch attempt is an `Except` value, the checkpoint file is a
`Checkpoint` record, and the saved checkpoints of a run are returned as a
trace.  All string manipulation is embedded over `List Char` / `String`
following the Python source character by character (ASCII semantics for
`lower`, `\w` and `\s`).
-/

namespace CvSync

/-! ## Basic character and string helpers -/

/-- Python `str.lower()` on one character (ASCII). -/
def lowerChar (c : Char) : Char := c.toLower

/-- Python `str.lower()` : lower-case every character. -/
def lowerStr (s : List Char) : List Char := s.map lowerChar

/-- Python `\s` / `str.isspace` whitespace class. -/
def isSpaceChar (c : Char) : Bool := c.isWhitespace

/-- Python `\w` word-character class (ASCII: alphanumeric or underscore). -/
def isWordChar (c : Char) : Bool := c.isAlphanum || c = '_'

/-- `re.sub(r'[^\w\s]', '', s)` : delete every character that is neither a
word character nor whitespace. -/
def stripPunct (s : List Char) : List Char :=
  s.filter (fun c => isWordChar c || isSpaceChar c)

/-- Python `str.strip()` : drop whitespace from both ends. -/
def pyStrip (s : List Char) : List Char :=
  ((s.dropWhile isSpaceChar).reverse.dropWhile isSpaceChar).reverse

/-- Python `str.split()` with no separator: split on runs of whitespace,
returning no empty pieces. -/
def splitWsGo : List Char → List Char → List (List Char)
  | [], acc => if acc.isEmpty then [] else [acc.reverse]
  | c :: cs, acc =>
      if isSpaceChar c then
        if acc.isEmpty then splitWsGo cs [] else acc.reverse :: splitWsGo cs []
      else splitWsGo cs (c :: acc)

/-- Python `str.split()` (no argument). -/
def splitWs (s : List Char) : List (List Char) := splitWsGo s []

/-- `needle` is a prefix of `hay` (Boolean version of `<+:`). -/
def startsWithL : List Char → List Char → Bool
  | [], _ => true
  | _ :: _, [] => false
  | a :: as, b :: bs => a = b && startsWithL as bs

/-- Python `needle in hay` : substring containment (Boolean version of
`<:+:`). -/
def containsSub (n : List Char) : List Char → Bool
  | [] => n.isEmpty
  | b :: bs => startsWithL n (b :: bs) || containsSub n bs

/-! ## Keyword sets and the classifier

Source: the constant lists `CONFERENCE_KEYWORDS` / `PREPRINT_KEYWORDS`, the
predicates `is_preprint` / `is_conference`, and the classification branch of
`process_publication`. -/

def CONFERENCE_KEYWORDS : List String :=
  ["conference", "proceedings", "workshop", "symposium", "meeting",
   "nips", "neurips", "icml", "cvpr", "iccv", "eccv", "aaai", "ijcai",
   "iclr", "acm", "ieee", "iccps", "acc", "cdc", "dscc", "mecc",
   "allerton", "siam", "asilomar", "hpec"]

def PREPRINT_KEYWORDS : List String :=
  ["arxiv", "preprint", "biorxiv", "medrxiv", "ssrn"]

/-- `is_preprint(venue)` : some preprint keyword occurs in `venue.lower()`. -/
def is_preprint (venue : String) : Bool :=
  PREPRINT_KEYWORDS.any (fun k => containsSub k.data (lowerStr venue.data))

/-- `is_conference(venue)` : some conference keyword occurs in
`venue.lower()`. -/
def is_conference (venue : String) : Bool :=
  CONFERENCE_KEYWORDS.any (fun k => containsSub k.data (lowerStr venue.data))

inductive Category where
  | journal
  | conference
  | preprint
deriving DecidableEq, Repr

/-- The classification branch of `process_publication`: preprint keywords are
checked first, then conference keywords, with journal as the default. -/
def classify (venue : String) : Category :=
  if is_preprint venue then .preprint
  else if is_conference venue then .conference
  else .journal

/-! ## Deduplication (`check_if_in_cv`) -/

/-- The cleaned text: `re.sub(r'[^\w\s]', '', s.lower())`. -/
def cleanText (s : String) : List Char := stripPunct (lowerStr s.data)

/-- `set(clean_title.split())` : the distinct words of the cleaned title
(as a duplicate-free list; counting over it matches iteration over the
Python set). -/
def titleWords (title : String) : List (List Char) :=
  (splitWs (cleanText title)).dedup

/-- `sum(1 for w in title_words if w in clean_cv and len(w) > 3)`. -/
def matchCount (title doc : String) : Nat :=
  (titleWords title).countP
    (fun w => containsSub w (cleanText doc) && decide (w.length > 3))

/-- `check_if_in_cv(title, existing_cv_text)`: empty document ⇒ `false`;
empty cleaned title word set ⇒ `false`; otherwise the counted-word fraction
must exceed 0.8 (= 4/5 exactly). -/
def check_if_in_cv (title doc : String) : Bool :=
  if doc = "" then false
  else if titleWords title = [] then false
  else decide ((matchCount title doc : ℚ) / ((titleWords title).length : ℚ) > 4 / 5)

/-! ## Author and entry formatting -/

/-- One match of the separator regex `\s+and\s+` at the head of `l`:
a nonempty whitespace run, the literal `and`, a nonempty whitespace run
(both runs greedy — maximality is forced because whitespace never starts
`and`).  Returns the remainder after the match. -/
def matchAndSep (l : List Char) : Option (List Char) :=
  let ws := l.takeWhile isSpaceChar
  if ws.isEmpty then none
  else
    match l.drop ws.length with
    | 'a' :: 'n' :: 'd' :: rest =>
        let ws2 := rest.takeWhile isSpaceChar
        if ws2.isEmpty then none else some (rest.drop ws2.length)
    | _ => none

/-- Left-to-right scan for `re.split(r'\s+and\s+', s)`.  The fuel argument
(always at least the remaining length plus one) makes the recursion
structural; each step either consumes the head character or a whole
separator match. -/
def splitAndGo : Nat → List Char → List Char → List (List Char)
  | 0, rest, acc => [acc.reverse ++ rest]
  | _ + 1, [], acc => [acc.reverse]
  | fuel + 1, c :: cs, acc =>
      match matchAndSep (c :: cs) with
      | some rest => acc.reverse :: splitAndGo fuel rest []
      | none => splitAndGo fuel cs (c :: acc)

/-- `re.split(r'\s+and\s+', s)`. -/
def splitAnd (s : List Char) : List (List Char) :=
  splitAndGo (s.length + 1) s []

/-- Format one name: all tokens but the last become `initial.`, the last
token is kept whole.  `none` models the `IndexError` the source raises on
`parts[-1]` when the name has no tokens at all. -/
def formatName (name : List Char) : Option (List Char) :=
  match splitWs name with
  | [] => none
  | [p] => some p
  | parts =>
      let initials := parts.dropLast.map (fun p => [p.headD ' ', '.'])
      some (List.intercalate [' '] initials ++ ' ' :: parts.getLastD [])

/-- `format_authors_initials(authors_str)`. -/
def format_authors_initials (s : String) : Option String :=
  if s = "" then some ""
  else
    match ((splitAnd s.data).map pyStrip).mapM formatName with
    | none => none
    | some [] => none
    | some [f] => some f.asString
    | some fs =>
        some ((List.intercalate ", ".data fs.dropLast
                ++ ", and ".data ++ fs.getLastD []).asString)

/-- One accepted publication record (`pub_data` in the source). -/
structure PubData where
  title : String
  authors : String
  venue : String
  year : String
  volume : String
  pages : String
  publisher : String
  scholar_url : String
  citations : Nat
deriving DecidableEq, Repr

/-- `format_journal_entry_cv_style(pub_data)`; empty optional fields
(Python-falsy) are omitted together with their leading punctuation. -/
def format_journal_entry_cv_style (pub : PubData) : Option String :=
  (format_authors_initials pub.authors).map fun authors =>
    let entry := authors ++ ". \"" ++ pub.title ++ "\" **" ++ pub.venue ++ "**"
    let entry := if pub.volume ≠ "" then entry ++ " " ++ pub.volume else entry
    let entry := if pub.year ≠ "" then entry ++ " (" ++ pub.year ++ ")" else entry
    let entry := if pub.pages ≠ "" then entry ++ ": " ++ pub.pages else entry
    entry ++ "."

/-- `format_conference_entry_cv_style(pub_data)`. -/
def format_conference_entry_cv_style (pub : PubData) : Option String :=
  (format_authors_initials pub.authors).map fun authors =>
    let entry := authors ++ ". \"" ++ pub.title ++ "\" **" ++ pub.venue ++ "**"
    let entry := if pub.year ≠ "" then entry ++ " (" ++ pub.year ++ ")" else entry
    entry ++ "."

/-! ## Tor circuit renewal (`renew_tor_circuit`)

The socket exchange with the control port is modelled by its observable
outcome: an exception (connection refused, timeout, protocol error — the
message text) or the decoded response.  The whole body is wrapped in
`try/except`, so the function is total on every outcome. -/

/-- `renew_tor_circuit`: first component is the returned Boolean, second is
the settle wait in seconds performed before returning (`time.sleep(7)`
exactly on success). -/
def renew_tor_circuit (outcome : Except String String) : Bool × Nat :=
  match outcome with
  | .error _ => (false, 0)
  | .ok resp =>
      if containsSub "250".data resp.data then (true, 7) else (false, 0)

/-! ## Checkpoint store -/

/-- The record `save_checkpoint` writes (the wall-clock `saved_at` field is
not modelled). -/
structure Checkpoint where
  next_idx : Nat
  total : Nat
  journal_papers : List PubData
  conference_papers : List PubData
  preprints : List PubData
deriving DecidableEq, Repr

/-- `save_checkpoint(next_idx, total, journals, conferences,
preprints_list)`: the record that overwrites the checkpoint file. -/
def save_checkpoint (next_idx total : Nat)
    (journals conferences preprints_list : List PubData) : Checkpoint :=
  ⟨next_idx, total, journals, conferences, preprints_list⟩

/-! ## Author-profile fetch loop -/

/-- Outcome of one attempt of the profile-fetch retry loop. -/
inductive ProfileFetchOutcome (α : Type) where
  | raises
  | searchNone
  | noPublications
  | ok (pubs : List α)
deriving DecidableEq, Repr

/-- Whether an attempt obtained the author data (the `break` branch). -/
def ProfileFetchOutcome.isSuccess {α : Type} : ProfileFetchOutcome α → Bool
  | .ok _ => true
  | .raises => false
  | .searchNone => false
  | .noPublications => false

/-- Result of the profile-fetch phase: the publication list, or the fatal
branch with the checkpoint written just before `exit` and the exit code. -/
inductive ProfileResult (α : Type) where
  | ok (pubs : List α)
  | fatal (saved : Checkpoint) (exitCode : Nat)
deriving DecidableEq, Repr

/-- The profile-fetch retry loop, over the outcomes of its (at most
`MAX_RETRIES`) attempts.  The source saves an all-empty checkpoint and calls
`exit(1)` either inside the loop (exception on the final attempt) or right
after it (`author is None` after all attempts) — both are the `[]` base
case here. -/
def fetch_author_profile {α : Type} : List (ProfileFetchOutcome α) → ProfileResult α
  | [] => .fatal (save_checkpoint 0 0 [] [] []) 1
  | .ok pubs :: _ => .ok pubs
  | .raises :: rest => fetch_author_profile rest
  | .searchNone :: rest => fetch_author_profile rest
  | .noPublications :: rest => fetch_author_profile rest

/-! ## Per-item fetch and the main processing loop -/

/-- The fields of a filled publication that the source reads; every `bib`
entry may be absent. -/
structure FilledPub where
  bib_title : Option String
  bib_venue : Option String
  bib_journal : Option String
  bib_citation : Option String
  bib_pub_year : Option String
  bib_author : Option String
  bib_volume : Option String
  bib_pages : Option String
  bib_publisher : Option String
  pub_url : Option String
  num_citations : Option Nat
deriving DecidableEq, Repr

/-- Python truthiness of a possibly-absent string (`None` and `""` are
falsy). -/
def pyTruthy : Option String → Bool
  | none => false
  | some s => s ≠ ""

/-- Python `a or b` on possibly-absent strings. -/
def pyOr (a b : Option String) : Option String :=
  if pyTruthy a then a else b

/-- `safe_str(value)`: `""` for `None`, else the stripped text. -/
def safe_str : Option String → String
  | none => ""
  | some s => (pyStrip s.data).asString

/-- `process_publication`, driven by the outcomes its successive
`scholarly.fill` attempts would observe (the source makes exactly
`MAX_RETRIES` attempts; an exception on a non-final attempt triggers
circuit renewal — which never raises — and a retry).  `none` is the
source's `return None`: skipped-no-title, skipped-duplicate, or all
retries exhausted. -/
def process_publication (attempts : List (Except String FilledPub))
    (existing_cv_text : String) : Option (PubData × Category) :=
  match attempts with
  | [] => none
  | .error _ :: rest => process_publication rest existing_cv_text
  | .ok full_pub :: _ =>
      let title := safe_str full_pub.bib_title
      let venue := safe_str
        (pyOr (pyOr full_pub.bib_venue full_pub.bib_journal) full_pub.bib_citation)
      let year := safe_str full_pub.bib_pub_year
      let authors := safe_str full_pub.bib_author
      let volume := safe_str full_pub.bib_volume
      let pages := safe_str full_pub.bib_pages
      let publisher := safe_str full_pub.bib_publisher
      if title = "" then none
      else if check_if_in_cv title existing_cv_text then none
      else
        let pub_data : PubData :=
          { title := title, authors := authors, venue := venue, year := year,
            volume := volume, pages := pages, publisher := publisher,
            scholar_url := full_pub.pub_url.getD "",
            citations := full_pub.num_citations.getD 0 }
        some (pub_data, classify venue)

/-- One publication item of a run, given by the outcomes its fetch attempts
would observe. -/
abbrev Item := List (Except String FilledPub)

/-- The three accumulator lists of the main loop. -/
structure LoopState where
  journal_papers : List PubData
  conference_papers : List PubData
  preprints : List PubData
deriving DecidableEq, Repr

/-- The `if result:` block of the main loop: append the accepted record to
its category's accumulator. -/
def applyResult (s : LoopState) : Option (PubData × Category) → LoopState
  | none => s
  | some (pd, .preprint) => { s with preprints := s.preprints ++ [pd] }
  | some (pd, .conference) =>
      { s with conference_papers := s.conference_papers ++ [pd] }
  | some (pd, .journal) => { s with journal_papers := s.journal_papers ++ [pd] }

/-- Record of one non-skipped item: its 0-based position and the checkpoint
saved right after its processing ended. -/
structure ItemEvent where
  index0 : Nat
  saved : Checkpoint
deriving DecidableEq, Repr

/-- The main loop `for idx, pub in enumerate(author["publications"], 1)`,
with `idx` the source's 1-based counter: items with `idx - 1 < start_idx`
are skipped without fetching; every other item is processed and then
`save_checkpoint(idx, total, ...)` runs, whatever the item's outcome.
Returns the final accumulators and the trace of item events in order. -/
def mainLoopGo (cv : String) (total start_idx : Nat) :
    List Item → Nat → LoopState → LoopState × List ItemEvent
  | [], _, s => (s, [])
  | item :: rest, idx, s =>
      if idx - 1 < start_idx then mainLoopGo cv total start_idx rest (idx + 1) s
      else
        let s' := applyResult s (process_publication item cv)
        let cp := save_checkpoint idx total
          s'.journal_papers s'.conference_papers s'.preprints
        let r := mainLoopGo cv total start_idx rest (idx + 1) s'
        (r.1, ⟨idx - 1, cp⟩ :: r.2)

/-- The full processing loop over the publication list. -/
def mainLoop (items : List Item) (start_idx : Nat) (cv : String)
    (s0 : LoopState) : LoopState × List ItemEvent :=
  mainLoopGo cv items.length start_idx items 1 s0

/-- The 0-based indices of the items a run actually fetched. -/
def fetchedIndices (r : LoopState × List ItemEvent) : List Nat :=
  r.2.map ItemEvent.index0

/-- The checkpoint-or-fresh decision
(`if checkpoint and checkpoint.get('total') == total:`): the start index
and the initial accumulators. -/
def resumeDecision (checkpoint : Option Checkpoint) (total : Nat) :
    Nat × LoopState :=
  match checkpoint with
  | some cp =>
      if cp.total = total then
        (cp.next_idx, ⟨cp.journal_papers, cp.conference_papers, cp.preprints⟩)
      else (0, ⟨[], [], []⟩)
  | none => (0, ⟨[], [], []⟩)

/-- A run from a loaded checkpoint (or none): the resume decision followed
by the processing loop.  (The initial pre-loop `save_checkpoint` only
re-writes the starting state and is not part of the item-event trace.) -/
def runFromCheckpoint (checkpoint : Option Checkpoint) (items : List Item)
    (cv : String) : LoopState × List ItemEvent :=
  let d := resumeDecision checkpoint items.length
  mainLoop items d.1 cv d.2

/-! ## Year sorting and output assembly -/

/-- The sort key `lambda x: x.get('year', '0')` — every record built by the
run carries a `year` field, so the key is the year text. -/
def yearKey (p : PubData) : String := p.year

/-- `a` may stand before `b` in the descending sort: the year text of `b`
is at most that of `a` (lexicographic string comparison by code point, as
Python compares strings). -/
def yearDescLe (a b : PubData) : Bool := decide (yearKey b ≤ yearKey a)

/-- `list.sort(key=lambda x: x.get("year", "0"), reverse=True)`: stable
descending sort by year text. -/
def sortByYearDesc (l : List PubData) : List PubData :=
  l.mergeSort yearDescLe

/-- Position of each category's section in the emitted outputs. -/
def catRank : Category → Nat
  | .journal => 0
  | .conference => 1
  | .preprint => 2

/-- The accepted entries in the order the outputs emit them: the journal
section, then conferences, then preprints, each sorted newest-first (a
section with no entries contributes nothing either way). -/
def emittedEntries (js cs ps : List PubData) : List (Category × PubData) :=
  (sortByYearDesc js).map (fun p => (Category.journal, p))
    ++ (sortByYearDesc cs).map (fun p => (Category.conference, p))
    ++ (sortByYearDesc ps).map (fun p => (Category.preprint, p))

/-! ## Substring-check lemmas -/

theorem startsWithL_prefix_iff (n h : List Char) :
    startsWithL n h = true ↔ n <+: h := by
  induction n generalizing h with
  | nil => simp [startsWithL]
  | cons a as ih =>
    cases h with
    | nil => simp [startsWithL]
    | cons b bs => simp [startsWithL, List.cons_prefix_cons, ih, and_comm]

theorem containsSub_infix_iff (n h : List Char) :
    containsSub n h = true ↔ n <:+: h := by
  induction h with
  | nil => cases n <;> simp [containsSub, List.isEmpty]
  | cons b bs ih =>
    simp [containsSub, List.infix_cons_iff, startsWithL_prefix_iff, ih]

theorem is_preprint_iff (v : String) :
    is_preprint v = true ↔ ∃ k ∈ PREPRINT_KEYWORDS, k.data <:+: lowerStr v.data := by
  simp [is_preprint, List.any_eq_true, containsSub_infix_iff]

theorem is_conference_iff (v : String) :
    is_conference v = true ↔ ∃ k ∈ CONFERENCE_KEYWORDS, k.data <:+: lowerStr v.data := by
  simp [is_conference, List.any_eq_true, containsSub_infix_iff]

/-! ## C3 : the classifier -/

/-- C3: classification of a venue text is a total deterministic function of
the venue text; any venue whose lower-cased text contains a preprint
keyword as a substring is classified preprint (even if conference keywords
co-occur), and any venue containing no keyword of either set — the empty
string included — is classified journal. -/
theorem classify_keyword_spec (v : String) :
    ((∃ k ∈ PREPRINT_KEYWORDS, k.data <:+: lowerStr v.data) →
      classify v = .preprint) ∧
    ((∀ k ∈ PREPRINT_KEYWORDS ++ CONFERENCE_KEYWORDS, ¬ k.data <:+: lowerStr v.data) →
      classify v = .journal) := by
  constructor
  · intro h
    rw [classify, if_pos ((is_preprint_iff v).mpr h)]
  · intro h
    have hp : ¬ is_preprint v = true := fun hc => by
      obtain ⟨k, hk, hinf⟩ := (is_preprint_iff v).mp hc
      exact h k (List.mem_append_left _ hk) hinf
    have hc : ¬ is_conference v = true := fun hcf => by
      obtain ⟨k, hk, hinf⟩ := (is_conference_iff v).mp hcf
      exact h k (List.mem_append_right _ hk) hinf
    rw [classify, if_neg hp, if_neg hc]

/-- Witness for C3 at concrete venues: a venue holding both a preprint and
a conference keyword classifies preprint; a keyword-free venue (and the
empty venue) classifies journal. -/
theorem classify_keyword_spec_witness :
    classify "arXiv Proceedings of ICML" = .preprint ∧
    classify "Journal of Examples" = .journal ∧
    classify "" = .journal :=
  ⟨(classify_keyword_spec "arXiv Proceedings of ICML").1
      ⟨"arxiv", by decide, by decide⟩,
   (classify_keyword_spec "Journal of Examples").2 (by decide),
   (classify_keyword_spec "").2 (by decide)⟩

/-! ## C4 and C10 : deduplication -/

theorem rat_div_gt_iff {m n : Nat} (hn : 0 < n) :
    ((m : ℚ) / (n : ℚ) > 4 / 5) ↔ 5 * m > 4 * n := by
  rw [gt_iff_lt, div_lt_div_iff₀ (by norm_num) (by exact_mod_cast hn)]
  norm_cast
  omega

/-- C4: `is_duplicate(title, "")` is `false` for every title; against a
nonempty document it is `true` exactly when more than 4/5 of the distinct
cleaned title words are counted (longer than 3 characters and a substring
of the cleaned document). -/
theorem check_if_in_cv_fraction_spec (title doc : String) :
    check_if_in_cv title "" = false ∧
    (doc ≠ "" →
      (check_if_in_cv title doc = true ↔
        5 * matchCount title doc > 4 * (titleWords title).length)) := by
  refine ⟨by simp [check_if_in_cv], fun hd => ?_⟩
  rw [check_if_in_cv, if_neg hd]
  by_cases hw : titleWords title = []
  · rw [if_pos hw]
    simp [matchCount, hw]
  · rw [if_neg hw]
    simp only [decide_eq_true_eq]
    exact rat_div_gt_iff (List.length_pos.mpr hw)

/-- Witness for C4 at a concrete title and document. -/
theorem check_if_in_cv_fraction_spec_witness :
    check_if_in_cv "Studying Things Deeply" "" = false ∧
    (check_if_in_cv "Studying Things Deeply" "we are studying things deeply" = true ↔
      5 * matchCount "Studying Things Deeply" "we are studying things deeply" >
        4 * (titleWords "Studying Things Deeply").length) :=
  ⟨(check_if_in_cv_fraction_spec "Studying Things Deeply" "x").1,
   (check_if_in_cv_fraction_spec "Studying Things Deeply"
      "we are studying things deeply").2 (by decide)⟩

/-- C10: when the cleaned title has no word tokens, `check_if_in_cv`
answers `false` for every document — the guard returns before the overlap
fraction (and its division by the word count) is ever evaluated. -/
theorem check_if_in_cv_empty_title_spec (title doc : String)
    (h : titleWords title = []) : check_if_in_cv title doc = false := by
  rw [check_if_in_cv]
  by_cases hd : doc = ""
  · rw [if_pos hd]
  · rw [if_neg hd, if_pos h]

/-- Witness for C10: a punctuation-only title yields no word tokens and is
never reported a duplicate. -/
theorem check_if_in_cv_empty_title_spec_witness :
    titleWords "!!! ???" = [] ∧ check_if_in_cv "!!! ???" "abc def" = false :=
  ⟨by decide, check_if_in_cv_empty_title_spec "!!! ???" "abc def" (by decide)⟩

/-! ## C8 : circuit renewal -/

/-- C8: `renew_tor_circuit` is total on every outcome of the control-port
exchange (no exception escapes); it returns `true` exactly when the
exchange succeeded and the response contains the success token `250`, it
sleeps the 7-second settle interval exactly in that case, and it returns
`false` on every error outcome. -/
theorem renew_tor_circuit_spec (outcome : Except String String) :
    ((renew_tor_circuit outcome).1 = true ↔
      ∃ resp, outcome = .ok resp ∧ "250".data <:+: resp.data) ∧
    ((renew_tor_circuit outcome).2 = 7 ↔ (renew_tor_circuit outcome).1 = true) ∧
    (∀ e, outcome = .error e → (renew_tor_circuit outcome).1 = false) := by
  cases outcome with
  | error e => simp [renew_tor_circuit]
  | ok resp =>
    by_cases h : containsSub "250".data resp.data = true
    · have hi := (containsSub_infix_iff _ _).mp h
      simp [renew_tor_circuit, h, hi]
    · have hi : ¬ "250".data <:+: resp.data :=
        fun hc => h ((containsSub_infix_iff _ _).mpr hc)
      simp [renew_tor_circuit, h, hi]

/-- Witness for C8: a `250` acknowledgement yields `true` with the settle
wait; a connection error yields `false`. -/
theorem renew_tor_circuit_spec_witness :
    (renew_tor_circuit (.ok "250 OK\r\n")).1 = true ∧
    (renew_tor_circuit (.error "connection refused")).1 = false :=
  ⟨(renew_tor_circuit_spec (.ok "250 OK\r\n")).1.mpr
      ⟨"250 OK\r\n", rfl, by decide⟩,
   (renew_tor_circuit_spec (.error "connection refused")).2.2
      "connection refused" rfl⟩

/-! ## C9 : fatal profile-fetch failure -/

/-- C9: when no attempt of the author-profile fetch succeeds, the run ends
in the fatal branch: the checkpoint file is overwritten with
`next_idx = 0`, `total = 0` and three empty category lists, and the process
exits with status 1 — a previous checkpoint does not survive. -/
theorem profile_fetch_fatal_spec {α : Type} (attempts : List (ProfileFetchOutcome α))
    (h : ∀ a ∈ attempts, a.isSuccess = false) :
    fetch_author_profile attempts = .fatal ⟨0, 0, [], [], []⟩ 1 := by
  induction attempts with
  | nil => rfl
  | cons a rest ih =>
    cases a with
    | ok pubs =>
      exact absurd (h _ (List.mem_cons_self _ _))
        (by simp [ProfileFetchOutcome.isSuccess])
    | raises => exact ih fun x hx => h x (List.mem_cons_of_mem _ hx)
    | searchNone => exact ih fun x hx => h x (List.mem_cons_of_mem _ hx)
    | noPublications => exact ih fun x hx => h x (List.mem_cons_of_mem _ hx)

/-- Witness for C9: a run whose attempts all fail (exception, missing
search result, missing publications) writes the empty checkpoint and exits
with status 1. -/
theorem profile_fetch_fatal_spec_witness :
    fetch_author_profile
        ([.raises, .searchNone, .noPublications, .raises] :
          List (ProfileFetchOutcome Nat))
      = .fatal ⟨0, 0, [], [], []⟩ 1 :=
  profile_fetch_fatal_spec _ (by decide)

/-! ## C5 and C6 : formatting examples -/

/-- C5, counterexample: the journal record of the example does NOT format
with the author list kept verbatim — `format_authors_initials` abbreviates
every token but the last, so the emitted line starts `J. A. Doe.`, not
`Jane A Doe.`. -/
theorem format_journal_example_counterexample :
    format_journal_entry_cv_style
        ⟨"Studying Things", "Jane A Doe", "Journal of Examples",
          "2023", "12", "1-10", "", "", 0⟩
      ≠ some "Jane A Doe. \"Studying Things\" **Journal of Examples** 12 (2023): 1-10." := by
  decide

/-- C5, amended: the example journal record formats to exactly
`J. A. Doe. "Studying Things" **Journal of Examples** 12 (2023): 1-10.`
(authors abbreviated to initials; emphasis markers literal). -/
theorem format_journal_example_amended :
    format_journal_entry_cv_style
        ⟨"Studying Things", "Jane A Doe", "Journal of Examples",
          "2023", "12", "1-10", "", "", 0⟩
      = some "J. A. Doe. \"Studying Things\" **Journal of Examples** 12 (2023): 1-10." := by
  decide

/-- C6: author formatting on `Henry C Croll and Kaoru Ikuma` splits on the
separator `and`, abbreviates all but the last token of each name, and joins
with a comma and a final `and`, giving exactly `H. C. Croll, and K. Ikuma`. -/
theorem format_authors_example :
    format_authors_initials "Henry C Croll and Kaoru Ikuma"
      = some "H. C. Croll, and K. Ikuma" := by
  decide

/-! ## Loop trace lemmas -/

theorem range_map_filter_cons (n b start : Nat) :
    ((List.range (n + 1)).map (· + b)).filter (fun i => decide (start ≤ i))
      = (if start ≤ b then [b] else [])
        ++ ((List.range n).map (· + (b + 1))).filter (fun i => decide (start ≤ i)) := by
  rw [List.range_succ_eq_map, List.map_cons, List.map_map, List.filter_cons]
  have hf : ((fun i => i + b) ∘ Nat.succ) = (fun i : Nat => i + (b + 1)) := by
    funext i
    simp [Function.comp]
    omega
  rw [hf, Nat.zero_add]
  by_cases h : start ≤ b
  · simp [h]
  · simp [h]

/-- The per-item event trace of the loop, started at 1-based counter
`b + 1`: the fetched 0-based indices are the item positions shifted by `b`
and at least `start_idx`, and every saved checkpoint carries the next
1-based index and the observed total. -/
theorem mainLoopGo_trace (cv : String) (total start : Nat) :
    ∀ (items : List Item) (b : Nat) (s : LoopState),
      ((mainLoopGo cv total start items (b + 1) s).2.map ItemEvent.index0
          = ((List.range items.length).map (· + b)).filter (fun i => decide (start ≤ i)))
      ∧ ∀ e ∈ (mainLoopGo cv total start items (b + 1) s).2,
          e.saved.next_idx = e.index0 + 1 ∧ e.saved.total = total
  | [], b, s => by simp [mainLoopGo]
  | item :: rest, b, s => by
    have hb : b + 1 - 1 = b := by omega
    have ih := mainLoopGo_trace cv total start rest (b + 1)
    by_cases hskip : b < start
    · have heq : mainLoopGo cv total start (item :: rest) (b + 1) s
          = mainLoopGo cv total start rest (b + 1 + 1) s := by
        simp only [mainLoopGo, hb]
        rw [if_pos hskip]
      constructor
      · rw [heq, (ih s).1, List.length_cons, range_map_filter_cons,
          if_neg (by omega : ¬ start ≤ b), List.nil_append]
      · intro e he
        rw [heq] at he
        exact (ih s).2 e he
    · have heq : mainLoopGo cv total start (item :: rest) (b + 1) s
          = ((mainLoopGo cv total start rest (b + 1 + 1)
                (applyResult s (process_publication item cv))).1,
             ⟨b, save_checkpoint (b + 1) total
                (applyResult s (process_publication item cv)).journal_papers
                (applyResult s (process_publication item cv)).conference_papers
                (applyResult s (process_publication item cv)).preprints⟩
               :: (mainLoopGo cv total start rest (b + 1 + 1)
                    (applyResult s (process_publication item cv))).2) := by
        simp only [mainLoopGo, hb]
        rw [if_neg hskip]
      constructor
      · rw [heq, List.length_cons, range_map_filter_cons,
          if_pos (by omega : start ≤ b), List.map_cons,
          (ih (applyResult s (process_publication item cv))).1]
        rfl
      · intro e he
        rw [heq] at he
        rcases List.mem_cons.mp he with h | h
        · subst h
          exact ⟨rfl, rfl⟩
        · exact (ih (applyResult s (process_publication item cv))).2 e h

theorem range_filter_ge (start : Nat) :
    ∀ n, (List.range n).filter (fun i => decide (start ≤ i))
      = List.range' start (n - start)
  | 0 => by simp
  | n + 1 => by
    rw [List.range_succ, List.filter_append, range_filter_ge start n]
    by_cases h : start ≤ n
    · rw [show n + 1 - start = (n - start) + 1 from by omega, List.range'_concat]
      simp [h, show start + 1 * (n - start) = n from by omega]
    · have h1 : n + 1 - start = 0 := by omega
      have h2 : n - start = 0 := by omega
      simp [h, h1, h2]

/-- The 0-based indices a run fetches are exactly
`start_idx, start_idx + 1, …, total - 1`, in order. -/
theorem mainLoop_fetched (items : List Item) (start : Nat) (cv : String)
    (s0 : LoopState) :
    fetchedIndices (mainLoop items start cv s0)
      = List.range' start (items.length - start) := by
  have h := (mainLoopGo_trace cv items.length start items 0 s0).1
  have hmap : (List.range items.length).map (· + 0) = List.range items.length := by
    simp
  calc fetchedIndices (mainLoop items start cv s0)
      = ((List.range items.length).map (· + 0)).filter
          (fun i => decide (start ≤ i)) := h
    _ = (List.range items.length).filter (fun i => decide (start ≤ i)) := by
          rw [hmap]
    _ = List.range' start (items.length - start) := range_filter_ge start items.length

/-! ## C2 : a checkpoint after every item -/

/-- C2: whatever each item's outcome (accepted, skipped for no title or
duplicate, or all fetch retries exhausted), the loop saves a checkpoint
whose `next_idx` is the item's 0-based index plus one (and whose `total` is
the observed publication count), and then continues: the fetched indices
are all of `start_idx, …, total - 1`, so a retry-exhausted item never
aborts the run. -/
theorem checkpoint_every_item_spec (items : List Item) (start : Nat)
    (cv : String) (s0 : LoopState) :
    (∀ e ∈ (mainLoop items start cv s0).2,
        e.saved.next_idx = e.index0 + 1 ∧ e.saved.total = items.length) ∧
    fetchedIndices (mainLoop items start cv s0)
      = List.range' start (items.length - start) :=
  ⟨fun e he => (mainLoopGo_trace cv items.length start items 0 s0).2 e he,
   mainLoop_fetched items start cv s0⟩

/-- Witness for C2: one item whose every fetch attempt raises (retries
exhausted) still gets processed and checkpointed with `next_idx = 1`, and
the run covers both items. -/
theorem checkpoint_every_item_spec_witness :
    ((⟨0, ⟨1, 2, [], [], []⟩⟩ : ItemEvent).saved.next_idx
        = (⟨0, ⟨1, 2, [], [], []⟩⟩ : ItemEvent).index0 + 1 ∧
      (⟨0, ⟨1, 2, [], [], []⟩⟩ : ItemEvent).saved.total
        = ([[Except.error "blocked"], [Except.error "blocked"]] : List Item).length) ∧
    fetchedIndices
        (mainLoop [[Except.error "blocked"], [Except.error "blocked"]] 0 "" ⟨[], [], []⟩)
      = [0, 1] :=
  ⟨(checkpoint_every_item_spec [[Except.error "blocked"], [Except.error "blocked"]]
        0 "" ⟨[], [], []⟩).1 ⟨0, ⟨1, 2, [], [], []⟩⟩ (by decide),
   (checkpoint_every_item_spec [[Except.error "blocked"], [Except.error "blocked"]]
        0 "" ⟨[], [], []⟩).2⟩

/-! ## C1 : checkpoint resume and discard -/

/-- C1: when the stored total equals the freshly observed count, the run
resumes with the stored `next_idx` and the stored three category lists as
accumulators, fetching exactly the indices from `next_idx` on (the first
fetched item is `next_idx`; nothing before it is re-fetched); when the
stored total differs, the run restarts at index 0 with empty accumulators
(the stored records discarded) and fetches every index. -/
theorem checkpoint_resume_spec (cp : Checkpoint) (items : List Item) (cv : String) :
    (cp.total = items.length →
      runFromCheckpoint (some cp) items cv
          = mainLoop items cp.next_idx cv
              ⟨cp.journal_papers, cp.conference_papers, cp.preprints⟩
        ∧ fetchedIndices (runFromCheckpoint (some cp) items cv)
            = List.range' cp.next_idx (items.length - cp.next_idx)
        ∧ (cp.next_idx < items.length →
            (fetchedIndices (runFromCheckpoint (some cp) items cv)).head?
              = some cp.next_idx))
    ∧ (cp.total ≠ items.length →
      runFromCheckpoint (some cp) items cv = mainLoop items 0 cv ⟨[], [], []⟩
        ∧ fetchedIndices (runFromCheckpoint (some cp) items cv)
            = List.range items.length) := by
  constructor
  · intro h
    have hrun : runFromCheckpoint (some cp) items cv
        = mainLoop items cp.next_idx cv
            ⟨cp.journal_papers, cp.conference_papers, cp.preprints⟩ := by
      simp only [runFromCheckpoint, resumeDecision]
      rw [if_pos h]
    have hidx : fetchedIndices (runFromCheckpoint (some cp) items cv)
        = List.range' cp.next_idx (items.length - cp.next_idx) := by
      rw [hrun]
      exact mainLoop_fetched items cp.next_idx cv _
    refine ⟨hrun, hidx, fun hlt => ?_⟩
    rw [hidx,
      show items.length - cp.next_idx = (items.length - cp.next_idx - 1) + 1
        from by omega,
      List.range'_succ]
    rfl
  · intro h
    have hrun : runFromCheckpoint (some cp) items cv
        = mainLoop items 0 cv ⟨[], [], []⟩ := by
      simp only [runFromCheckpoint, resumeDecision]
      rw [if_neg h]
    refine ⟨hrun, ?_⟩
    rw [hrun, mainLoop_fetched, Nat.sub_zero, List.range_eq_range']

/-- Witness for C1: a checkpoint with `next_idx = 1`, matching total 2 and
one stored journal record resumes at index 1 with the stored accumulators:
only index 1 is fetched and it is fetched first. -/
theorem checkpoint_resume_spec_witness :
    runFromCheckpoint
        (some ⟨1, 2, [⟨"T", "A", "V", "2020", "", "", "", "", 0⟩], [], []⟩)
        [[Except.error "x"], [Except.error "y"]] ""
      = mainLoop [[Except.error "x"], [Except.error "y"]] 1 ""
          ⟨[⟨"T", "A", "V", "2020", "", "", "", "", 0⟩], [], []⟩ ∧
    fetchedIndices
        (runFromCheckpoint
          (some ⟨1, 2, [⟨"T", "A", "V", "2020", "", "", "", "", 0⟩], [], []⟩)
          [[Except.error "x"], [Except.error "y"]] "")
      = [1] ∧
    (fetchedIndices
        (runFromCheckpoint
          (some ⟨1, 2, [⟨"T", "A", "V", "2020", "", "", "", "", 0⟩], [], []⟩)
          [[Except.error "x"], [Except.error "y"]] "")).head?
      = some 1 :=
  have h := (checkpoint_resume_spec
      ⟨1, 2, [⟨"T", "A", "V", "2020", "", "", "", "", 0⟩], [], []⟩
      [[Except.error "x"], [Except.error "y"]] "").1 rfl
  ⟨h.1, h.2.1, h.2.2 (by decide)⟩

/-! ## C7 : output ordering -/

theorem sortByYearDesc_pairwise (l : List PubData) :
    (sortByYearDesc l).Pairwise (fun a b => b.year ≤ a.year) := by
  have h : (List.mergeSort l yearDescLe).Pairwise
      (fun a b => yearDescLe a b = true) :=
    List.sorted_mergeSort
      (fun a b c hab hbc => by
        simp only [yearDescLe, decide_eq_true_eq] at *
        exact le_trans hbc hab)
      (fun a b => by
        simp only [yearDescLe, Bool.or_eq_true, decide_eq_true_eq]
        exact le_total _ _)
      l
  exact h.imp fun hab => by simpa [yearDescLe, yearKey] using hab

/-- C7: in the emitted outputs the accepted entries appear in the fixed
section order journal, conference, preprint, and inside one section any
earlier entry has a year text lexicographically at least that of any later
entry (descending year sort). -/
theorem emitted_entries_order (js cs ps : List PubData) :
    (emittedEntries js cs ps).Pairwise
      (fun a b => catRank a.1 < catRank b.1 ∨ (a.1 = b.1 ∧ b.2.year ≤ a.2.year)) := by
  have hw : ∀ (l : List PubData) (c : Category),
      ((sortByYearDesc l).map (fun p => (c, p))).Pairwise
        (fun a b : Category × PubData =>
          catRank a.1 < catRank b.1 ∨ (a.1 = b.1 ∧ b.2.year ≤ a.2.year)) := by
    intro l c
    rw [List.pairwise_map]
    exact (sortByYearDesc_pairwise l).imp fun h => Or.inr ⟨rfl, h⟩
  have hmem : ∀ (l : List PubData) (c : Category) (x : Category × PubData),
      x ∈ (sortByYearDesc l).map (fun p => (c, p)) → x.1 = c := by
    intro l c x hx
    obtain ⟨p, _, rfl⟩ := List.mem_map.mp hx
    rfl
  rw [emittedEntries, List.pairwise_append]
  refine ⟨?_, hw ps .preprint, ?_⟩
  · rw [List.pairwise_append]
    refine ⟨hw js .journal, hw cs .conference, ?_⟩
    intro a ha b hb
    rw [hmem js .journal a ha, hmem cs .conference b hb]
    exact Or.inl (by decide)
  · intro a ha b hb
    rw [hmem ps .preprint b hb]
    rcases List.mem_append.mp ha with h | h
    · rw [hmem js .journal a h]
      exact Or.inl (by decide)
    · rw [hmem cs .conference a h]
      exact Or.inl (by decide)

end CvSync
